import Mathlib

/-!
Verification of the plueprint API Blueprint parser (entities.py, mdparser.py)
against its natural-language specification.  Python strings are modelled as
Lean strings, with index arithmetic carried out on their character lists;
Python exceptions are modelled by an explicit error type and fallible
functions return Except values; object identity (needed where the code
relies on the "is" operator) is modelled by numeric identity tags.
-/

/-- Python exception kinds observable in the parser core. -/
inductive PyExc where
  | valueError (msg : String)
  | indexError
  | typeError (msg : String)
  | assertionError
  | attributeError
  | notImplementedError
  | blueprintParseError (msg : String)
deriving DecidableEq

/-- Characters removed by the str.strip() Python method. -/
def trimChars (l : List Char) : List Char :=
  ((l.dropWhile Char.isWhitespace).reverse.dropWhile Char.isWhitespace).reverse

/-- Python str.strip() on a Lean string. -/
def pyStrip (s : String) : String := String.mk (trimChars s.toList)

/-- Separator characters used by select_pos calls over space and tab. -/
def isSpaceTab (c : Char) : Bool := c = ' ' || c = '\t'

/-- Position of the first space or tab: the value of
select_pos(txt.find(c) for c in (' ', '\t')), with None for -1. -/
def firstSepPos (l : List Char) : Option Nat := l.findIdx? isSpaceTab

/-- Python str.rfind for a single character, None standing for -1. -/
def lastIdxOf (c : Char) (l : List Char) : Option Nat :=
  (l.reverse.findIdx? (fun x => x = c)).map (fun i => l.length - 1 - i)

/-- Python str.find for a single character, None standing for -1. -/
def pyFindChar (c : Char) (l : List Char) : Option Nat :=
  l.findIdx? (fun x => x = c)

/-- Python str.split with a single-character separator, written with
structural recursion so that the kernel can evaluate it. -/
def splitPredGo (p : Char → Bool) : List Char → List Char → List String
  | [], acc => [String.mk acc.reverse]
  | x :: rest, acc =>
    if p x then String.mk acc.reverse :: splitPredGo p rest []
    else splitPredGo p rest (x :: acc)

/-- Python str.split(sep) for a one-character separator. -/
def pySplitChar (c : Char) (s : String) : List String :=
  splitPredGo (fun x => x = c) s.toList []

/-- HTTP methods recognised by Resource.parse_definition. -/
def HTTP_METHODS : List String :=
  ["GET", "POST", "PUT", "PATCH", "DELETE", "HEAD"]

/-- Resource.parse_definition from entities.py: split a resource heading
into (name, request method, uri template). -/
def Resource.parse_definition (txt : String) :
    Except PyExc (Option String × Option String × Option String) :=
  let cs := trimChars txt.toList
  match cs.getLast? with
  | none => .error .indexError
  | some lastc =>
    if lastc = ']' then
      match lastIdxOf '[' cs with
      | none => .error (.valueError ("Invalid format"))
      | some br =>
        let part := trimChars ((cs.drop (br + 1)).dropLast)
        let name := String.mk (trimChars (cs.take br))
        match firstSepPos part with
        | some sep =>
            .ok (some name, some (String.mk (part.take sep)),
                 some (String.mk (trimChars (part.drop sep))))
        | none => .ok (some name, none, some (String.mk part))
    else
      match firstSepPos cs with
      | some sep =>
        let method := String.mk (cs.take sep)
        if method ∈ HTTP_METHODS then
          .ok (none, some method,
               some (String.mk (trimChars (cs.drop (sep + 1)))))
        else
          .ok (none, none, some (String.mk cs))
      | none => .ok (none, none, some (String.mk cs))

def splitMethodTemplate (part : List Char) : Option String × Option String :=
  let tail := part.dropWhile (fun c => !(isSpaceTab c))
  if tail.isEmpty then (none, some (String.mk part))
  else (some (String.mk (part.takeWhile (fun c => !(isSpaceTab c)))),
        some (String.mk (trimChars tail)))

def plainMethodTemplate (t : List Char) : Option String × Option String :=
  match t.dropWhile (fun c => !(isSpaceTab c)) with
  | [] => (none, some (String.mk t))
  | _ :: rest =>
    if String.mk (t.takeWhile (fun c => !(isSpaceTab c))) ∈ HTTP_METHODS then
      (some (String.mk (t.takeWhile (fun c => !(isSpaceTab c)))),
       some (String.mk (trimChars rest)))
    else (none, some (String.mk t))

instance {ε α : Type} [DecidableEq ε] [DecidableEq α] : DecidableEq (Except ε α) := by
  intro a b
  cases a <;> cases b
  case ok.ok x y =>
    exact if h : x = y then .isTrue (by rw [h]) else .isFalse (by intro hx; cases hx; exact h rfl)
  case error.error x y =>
    exact if h : x = y then .isTrue (by rw [h]) else .isFalse (by intro hx; cases hx; exact h rfl)
  case ok.error x y => exact .isFalse (by intro hx; cases hx)
  case error.ok x y => exact .isFalse (by intro hx; cases hx)


/-- Markdown element tree node as consumed by the tree-to-model pass. -/
structure Element where
  tag : String
  text : Option String
  children : List Element

/-- Association-list rendering of a Python dict: assignment overwrites an
existing key in place and otherwise appends at the end. -/
def dictUpd {k b : Type} [DecidableEq k] (l : List (k × b)) (key : k) (v : b) :
    List (k × b) :=
  if l.any (fun p => p.1 = key) then l.map (fun p => if p.1 = key then (key, v) else p)
  else l ++ [(key, v)]

/-- Python dict.get on the association-list rendering. -/
def lookupAssoc {k b : Type} [DecidableEq k] (l : List (k × b)) (key : k) :
    Option b :=
  (l.find? (fun p => p.1 = key)).map (fun p => p.2)

/-- get_pre_contents from entities.py: the text of a node, looking through a
pre node wrapping a single code child when the pre itself has no text. -/
def get_pre_contents (node : Element) : Option String :=
  match node.children with
  | [child] =>
    if node.tag = "pre" ∧ (node.text = none ∨ node.text = some ("")) ∧
        child.tag = "code" then
      child.text
    else node.text
  | _ => node.text

/-- ReferenceableMixin._extract_reference from entities.py: text of the form
bracket NAME bracket bracket-pair is recognised as a payload model reference. -/
def extract_reference (txt : String) : Option String :=
  let cs := txt.toList
  if 4 < cs.length ∧ cs.head? = some '[' ∧ cs.reverse.take 3 = [']', '[', ']'] then
    some (String.mk ((cs.drop 1).take (cs.length - 4)))
  else none

/-- Payload section record shared by Request, Response and Model: the headers,
attributes, body and schema slots hold identity tags of the owned section
objects (numeric stand-ins for Python object identity). -/
structure PayloadSection where
  name : Option String
  media_type : Option (List String)
  description : Option String
  headers : Option Nat
  attributes : Option Nat
  body : Option Nat
  schema : Option Nat
  reference : Option String
deriving DecidableEq

/-- RRPredefinedPayloadSection._copy_from_payload from entities.py. -/
def copy_from_payload (s payload : PayloadSection) : PayloadSection :=
  { s with
    name := if s.name = none then payload.name else s.name,
    description := payload.description,
    media_type := payload.media_type,
    headers := payload.headers,
    attributes := payload.attributes,
    body := payload.body,
    schema := payload.schema }

/-- Tail of RRPredefinedPayloadSection.parse_from_etree from entities.py: a
freshly parsed Request or Response with all four payload slots null and a
single p or pre child is marked with the reference extracted from that child；
none models the TypeError raised when the child carries no text at all. -/
def rr_mark_reference (obj : PayloadSection) (node : Element) :
    Option PayloadSection :=
  if obj.headers = none ∧ obj.attributes = none ∧ obj.body = none ∧
      obj.schema = none then
    match node.children with
    | [child] =>
      if child.tag = "p" ∨ child.tag = "pre" then
        match get_pre_contents child with
        | some txt => some { obj with reference := extract_reference txt }
        | none => none
      else some obj
    | _ => some obj
  else some obj

/-- Reference-resolution step applied to every Request and Response of a
freshly parsed Action in APIBlueprint._parse_resource from mdparser.py: a
carried reference is looked up in the model table and the model payload is
copied in on success; the Bool records whether the bad-reference warning was
written. -/
def resolve_rr_reference (models : List (String × PayloadSection))
    (rr : PayloadSection) : PayloadSection × Bool :=
  match rr.reference with
  | none => (rr, false)
  | some ref =>
    match lookupAssoc models ref with
    | none => (rr, true)
    | some m => (copy_from_payload rr m, false)

/-- Request record as assembled by Action parsing: payload slots are identity
tags and responses is the list of linked Response objects. -/
structure RequestS where
  name : Option String
  media_type : Option (List String)
  description : Option String
  headers : Option Nat
  attributes : Option Nat
  body : Option Nat
  schema : Option Nat
  responses : List (Int × Nat)
deriving DecidableEq

/-- Response object view used by Action iteration: its http code and the
identity tag of the payload. -/
structure ResponseS where
  http_code : Int
  tag : Nat
deriving DecidableEq

/-- Request.responses from entities.py: the dict comprehension keyed by http
code, later entries overwriting earlier entries with the same code. -/
def Request.responsesByCode (q : RequestS) : List (Int × Nat) :=
  q.responses.foldl (fun acc r => dictUpd acc r.1 r.2) []

/-- Second component yielded by Action iteration: a flat response list for
the synthetic default request, a code-keyed mapping for a real request. -/
inductive RespView where
  | flat (l : List ResponseS)
  | byCode (l : List (Int × Nat))
deriving DecidableEq

/-- Action state consumed by iteration: its attributes tag, its ordered
requests and its responses grouped by http code. -/
structure ActionIt where
  attributes : Option Nat
  requests : List RequestS
  responses : List (Int × List ResponseS)
deriving DecidableEq

/-- Action.__len__ from entities.py. -/
def Action.lengthVal (a : ActionIt) : Nat :=
  if a.requests.isEmpty then 1 else a.requests.length

/-- The synthetic Request yielded by Action.__iter__ for an Action without
requests. -/
def Action.defaultRequest (a : ActionIt) : RequestS :=
  ⟨some ("default"), none, none, none, a.attributes, none, none, []⟩

/-- Action.__iter__ from entities.py, materialised as the list of yielded
pairs. -/
def Action.iterPairs (a : ActionIt) : List (RequestS × RespView) :=
  if a.requests.isEmpty then
    [(Action.defaultRequest a, .flat ((a.responses.map (fun p => p.2)).flatten))]
  else a.requests.map (fun q => (q, .byCode (Request.responsesByCode q)))

/-- Attribute-inheritance loop at the end of Action.parse_from_etree from
entities.py: every parsed Request without attributes of its own receives the
Action attributes object. -/
def inherit_request_attributes (actionAttributes : Option Nat)
    (reqs : List RequestS) : List RequestS :=
  reqs.map (fun req =>
    if req.attributes = none then { req with attributes := actionAttributes }
    else req)

/-- One recorded Response instance inside Action parsing: the payload tag,
which deep copy it is (zero is the canonical original) and the back-reference
to the request it was assigned to. -/
structure RespInstance where
  payload : Nat
  copyIndex : Nat
  requestRef : Option Nat
deriving DecidableEq

/-- Request slot inside Action parsing: the request payload tag and the
responses linked to it so far. -/
structure ReqSlot where
  payload : Nat
  responses : List RespInstance
deriving DecidableEq

/-- State of the Request and Response bookkeeping inside
Action.parse_from_etree: parsed requests, recorded response instances, the
pending request list and the clear-on-next-request flag. -/
structure ActionParseState where
  requests : List ReqSlot
  responses : List RespInstance
  pending : List Nat
  clearFlag : Bool
deriving DecidableEq

/-- Appending a response instance to the request slot at a given index. -/
def addRespToRequest : List ReqSlot → Nat → RespInstance → List ReqSlot
  | [], _, _ => []
  | slot :: rest, 0, inst =>
    { slot with responses := slot.responses ++ [inst] } :: rest
  | slot :: rest, n + 1, inst => slot :: addRespToRequest rest n inst

/-- The enumerate loop over the pending requests on a Response item: pending
request number i receives instance number i of the response. -/
def updateRequestsGo (payload : Nat) :
    List ReqSlot → Nat → List Nat → List ReqSlot
  | reqs, _, [] => reqs
  | reqs, i, r :: rest =>
    updateRequestsGo payload
      (addRespToRequest reqs r ⟨payload, i, some r⟩) (i + 1) rest

/-- Response instances recorded on the action for a Response item with pending
requests: the original for the first pending request, one deep copy per extra
pending request, each back-referencing the request at its position. -/
def respInstancesGo (payload : Nat) : Nat → List Nat → List RespInstance
  | _, [] => []
  | i, r :: rest => ⟨payload, i, some r⟩ :: respInstancesGo payload (i + 1) rest

/-- Action.parse_from_etree step for a parsed Request item from entities.py:
a pending clear flag drops the pending list first, then the request is
appended to both the request collection and the pending list. -/
def action_on_request (st : ActionParseState) (payload : Nat) :
    ActionParseState :=
  let pending := if st.clearFlag then [] else st.pending
  { requests := st.requests ++ [⟨payload, []⟩],
    responses := st.responses,
    pending := pending ++ [st.requests.length],
    clearFlag := st.clearFlag }

/-- Action.parse_from_etree step for a parsed Response item from entities.py:
the response is linked to every pending request, recorded once per pending
request (the original plus deep copies), or recorded alone when nothing is
pending, and the clear flag is raised. -/
def action_on_response (st : ActionParseState) (payload : Nat) :
    ActionParseState :=
  let insts :=
    if st.pending.isEmpty then [⟨payload, 0, none⟩]
    else respInstancesGo payload 0 st.pending
  { requests := updateRequestsGo payload st.requests 0 st.pending,
    responses := st.responses ++ insts,
    pending := st.pending,
    clearFlag := true }


/-- Python truthiness of an optional string. -/
def truthyStr (s : Option String) : Bool :=
  match s with
  | none => false
  | some t => t ≠ ""

/-- Resource view used by merging: its actions keyed by action id (the action
itself abstracted to an identity tag). -/
structure ResourceM where
  actions : List (String × Nat)
deriving DecidableEq

/-- Resource group view used by merging: resources keyed by resource id. -/
structure GroupM where
  resources : List (String × ResourceM)
deriving DecidableEq

/-- Blueprint state touched by APIBlueprint.merge: name, overview, the data
structure table and the group table (the implicit group has key none). -/
structure BlueprintM where
  name : Option String
  overview : Option String
  data_structures : List (String × Nat)
  groups : List (Option String × GroupM)
deriving DecidableEq

/-- Argument of merge: another blueprint, or any non-blueprint object. -/
inductive MergeArg where
  | bp (other : BlueprintM)
  | nonBlueprint

/-- Innermost loop of APIBlueprint.merge from mdparser.py over the actions of
a resource present on both sides: an action id collision raises
NotImplementedError, and otherwise the item assignment on the Resource object
raises TypeError because Resource defines no setitem. -/
def mergeActions (miner : ResourceM) :
    List (String × Nat) → ResourceM × Option PyExc
  | [] => (miner, none)
  | (aid, _) :: _ =>
    match lookupAssoc miner.actions aid with
    | some _ => (miner, some (.notImplementedError))
    | none =>
      (miner, some (.typeError ("Resource object does not support item assignment")))

/-- Middle loop of APIBlueprint.merge over the resources of a group present on
both sides: new resources are deep copied in, existing ones merged action by
action. -/
def mergeResources (mineg : GroupM) :
    List (String × ResourceM) → GroupM × Option PyExc
  | [] => (mineg, none)
  | (rid, r) :: rest =>
    match lookupAssoc mineg.resources rid with
    | none =>
      mergeResources { resources := dictUpd mineg.resources rid r } rest
    | some miner =>
      match mergeActions miner r.actions with
      | (miner2, none) =>
        mergeResources { resources := dictUpd mineg.resources rid miner2 } rest
      | (miner2, some e) =>
        ({ resources := dictUpd mineg.resources rid miner2 }, some e)

/-- Outer loop of APIBlueprint.merge over the groups of the other blueprint. -/
def mergeGroups (self : BlueprintM) :
    List (Option String × GroupM) → BlueprintM × Option PyExc
  | [] => (self, none)
  | (gname, g) :: rest =>
    match lookupAssoc self.groups gname with
    | none =>
      mergeGroups { self with groups := dictUpd self.groups gname g } rest
    | some mineg =>
      match mergeResources mineg g.resources with
      | (mineg2, none) =>
        mergeGroups { self with groups := dictUpd self.groups gname mineg2 } rest
      | (mineg2, some e) =>
        ({ self with groups := dictUpd self.groups gname mineg2 }, some e)

/-- Data structure and group phase of APIBlueprint.merge: reject colliding
data structure names, then update the table and merge group by group. -/
def mergeRest (self : BlueprintM) (other : BlueprintM) :
    BlueprintM × Option PyExc :=
  if self.data_structures.any
      (fun p => other.data_structures.any (fun q => q.1 = p.1)) then
    (self, some (.valueError ("Data structures collide")))
  else
    mergeGroups
      { self with
        data_structures :=
          other.data_structures.foldl (fun acc p => dictUpd acc p.1 p.2)
            self.data_structures }
      other.groups

/-- Overview concatenation step of APIBlueprint.merge: a truthy other overview
is appended after a newline; augmenting a None overview raises TypeError. -/
def mergeWithOverview (self : BlueprintM) (other : BlueprintM) :
    BlueprintM × Option PyExc :=
  if truthyStr other.overview then
    match self.overview, other.overview with
    | some so, some oo =>
      mergeRest { self with overview := some (so ++ "\n" ++ oo) } other
    | _, _ => (self, some (.typeError ("unsupported operand type")))
  else mergeRest self other

/-- APIBlueprint.merge from mdparser.py as a state transformer over the
receiver, returning the final receiver state together with the exception
raised, if any; mutations made before the raise persist, as in Python. -/
def APIBlueprint.merge (self : BlueprintM) : MergeArg → BlueprintM × Option PyExc
  | .nonBlueprint =>
    (self, some (.typeError ("Merge with plueprint.mdparser.APIBlueprint objects only")))
  | .bp other =>
    if truthyStr other.name then
      match self.name, other.name with
      | some sn, some onm =>
        mergeWithOverview { self with name := some (sn ++ " & " ++ onm) } other
      | _, _ => (self, some (.typeError ("unsupported operand type")))
    else mergeWithOverview self other


/-- One pass of the metadata loop in APIBlueprint._parse from mdparser.py:
each line is split at its first colon via str.index, which raises ValueError
when absent; a colon in position zero is the BlueprintParseError case; keys
map to stripped values in a dict, later lines overwriting earlier keys. -/
def parse_metadata_go (acc : List (String × String)) :
    List String → Except PyExc (List (String × String))
  | [] => .ok acc
  | line :: rest =>
    match pyFindChar ':' line.toList with
    | none => .error (.valueError ("substring not found"))
    | some p =>
      if p < 1 then .error (.blueprintParseError ("Invalid metadata format"))
      else
        parse_metadata_go
          (dictUpd acc (String.mk (line.toList.take p))
            (pyStrip (String.mk (line.toList.drop (p + 1))))) rest

/-- Head of APIBlueprint._parse from mdparser.py (lines 190 to 204): the
document-structure checks, metadata parsing and name extraction, faithful to
the raised exception kinds. -/
def parse_head (root : List Element) :
    Except PyExc (List (String × String) × Option String) :=
  if root.length < 3 then .error (.blueprintParseError ("Invalid document format"))
  else
    match root with
    | r0 :: r1 :: _ =>
      if r0.tag ≠ "p" then
        .error (.blueprintParseError ("Empty or missing metadata section"))
      else
        match r0.text with
        | none => .error (.attributeError)
        | some t =>
          match parse_metadata_go [] (pySplitChar '\n' t) with
          | .error e => .error e
          | .ok md =>
            if r1.tag ≠ "h1" then
              .error (.blueprintParseError ("Invalid or missing name section"))
            else .ok (md, r1.text)
    | _ => .error (.blueprintParseError ("Invalid document format"))

/-- APIBlueprint.format from mdparser.py: metadata.get of the FORMAT key,
None when the entry is absent. -/
def APIBlueprint.format (md : List (String × String)) : Option String :=
  lookupAssoc md ("FORMAT")

/-- Failure classification of one metadata line following the claim wording:
no colon raises ValueError, a leading colon raises BlueprintParseError. -/
def lineFailure (line : String) : Option PyExc :=
  match pyFindChar ':' line.toList with
  | none => some (.valueError ("substring not found"))
  | some 0 => some (.blueprintParseError ("Invalid metadata format"))
  | some _ => none

/-- The error component of an Except value. -/
def errOf {a : Type} : Except PyExc a → Option PyExc
  | .error e => some e
  | .ok _ => none

/-- Claim-side failure description for the parse head, written from the
amended claim: fewer than three root children, a non-paragraph first child, a
non-h1 second child are BlueprintParseError; the first offending metadata
line fails per lineFailure; nothing consults the FORMAT key. -/
def head_failure_claim (root : List Element) : Option PyExc :=
  if root.length < 3 then some (.blueprintParseError ("Invalid document format"))
  else
    match root with
    | r0 :: r1 :: _ =>
      if r0.tag ≠ "p" then
        some (.blueprintParseError ("Empty or missing metadata section"))
      else
        match r0.text with
        | none => some (.attributeError)
        | some t =>
          match (pySplitChar '\n' t).findSome? lineFailure with
          | some e => some e
          | none =>
            if r1.tag ≠ "h1" then
              some (.blueprintParseError ("Invalid or missing name section"))
            else none
    | _ => some (.blueprintParseError ("Invalid document format"))


/-- Python str.split() with no separator: split on whitespace, dropping empty
pieces. -/
def pyWords (s : String) : List String :=
  (splitPredGo Char.isWhitespace s.toList []).filter (fun w => w ≠ "")

/-- Python str.startswith. -/
def pyStartsWith (s pre : String) : Bool := pre.toList.isPrefixOf s.toList

/-- Child Attribute generated for one comma-separated piece of an array
value: typed with the array subtype and valued with the piece split into
words. -/
structure ArrayItemNode where
  type : String
  value : List String
deriving DecidableEq

/-- Value slot of a parsed Attribute: a plain string, or the expanded list of
array items. -/
inductive AttrValue where
  | str (s : String)
  | items (l : List ArrayItemNode)
deriving DecidableEq

/-- Result of Attribute.parse_from_string: the five parsed components, the
type kept as written (None when absent). -/
structure AttrParsed where
  name : String
  rawType : Option String
  required : Option Bool
  description : Option String
  value : Option AttrValue
deriving DecidableEq

/-- The type defaulting in Attribute.__init__: type_ or the string object. -/
def typeOrObject (t : Option String) : String :=
  match t with
  | none => "object"
  | some s => if s = "" then "object" else s

/-- Attribute.extract_array_subtype from entities.py. -/
def extract_array_subtype (t : Option String) : Except PyExc String :=
  match t with
  | none => .error (.valueError ("Type None is not an array type"))
  | some s =>
    if ¬ pyStartsWith s ("array") then
      .error (.valueError ("Type " ++ s ++ " is not an array type"))
    else
      let sub := s.toList.drop 5
      if sub.isEmpty then .ok ("object")
      else if sub.head? = some '[' ∧ sub.getLast? = some ']' then
        .ok (String.mk ((sub.drop 1).dropLast))
      else .error (.valueError ("Invalid type format: %s"))

/-- Array-value expansion at the end of Attribute.parse_from_string: a
non-null value of an array-typed attribute is split at commas into child
attributes, a failed subtype extraction leaving the plain string. -/
def attr_value_expand (v : Option String) (t : Option String) :
    Option AttrValue :=
  match v with
  | none => none
  | some vs =>
    match extract_array_subtype t with
    | .error _ => some (.str vs)
    | .ok subtype =>
      some (.items ((pySplitChar ',' vs).map (fun piece => ⟨subtype, pyWords piece⟩)))

/-- Name and value split of Attribute.parse_from_string: the remaining line is
split at its first colon into stripped name and value, an empty value
standing for None. -/
def attr_finish (line2 : List Char) (t : Option String)
    (required : Option Bool) (desc : Option String) : AttrParsed :=
  match pyFindChar ':' line2 with
  | some cp =>
    let value0 : Option String :=
      if (trimChars (line2.drop (cp + 1))).isEmpty then none
      else some (String.mk (trimChars (line2.drop (cp + 1))))
    ⟨String.mk (trimChars (line2.take cp)), t, required, desc,
      attr_value_expand value0 t⟩
  | none => ⟨String.mk line2, t, required, desc, none⟩

/-- Attribute.parse_from_string from entities.py: optional list bullet, then
the dash-separated description tail, then the parenthesised type with its
optional required or optional word, then name colon value. -/
def Attribute.parse_from_string (line : String) : Except PyExc AttrParsed :=
  match line.toList with
  | [] => .error .indexError
  | c0 :: rest0 =>
    let cs := if c0 = '-' ∨ c0 = '+' then rest0 else c0 :: rest0
    let pd :=
      match lastIdxOf '-' cs with
      | some dp =>
        (trimChars (cs.take dp), some (String.mk (trimChars (cs.drop (dp + 1)))))
      | none => (cs, none)
    if pd.1 ≠ [] ∧ pd.1.getLast? = some ')' then
      match lastIdxOf '(' pd.1 with
      | none => .error (.valueError ("Invalid type format"))
      | some tp =>
        let typeRaw := trimChars ((pd.1.drop (tp + 1)).dropLast)
        match lastIdxOf ',' typeRaw with
        | some rp =>
          .ok (attr_finish (trimChars (pd.1.take tp))
            (some (String.mk (trimChars (typeRaw.take rp))))
            (some (String.mk (trimChars (typeRaw.drop (rp + 1))) == ("required")))
            pd.2)
        | none =>
          .ok (attr_finish (trimChars (pd.1.take tp))
            (some (String.mk typeRaw)) none pd.2)
    else .ok (attr_finish pd.1 none none pd.2)

/-- ParameterMember.parse_from_string from entities.py: the member line parsed
as an attribute, keeping name and description. -/
def ParameterMember.parse_from_string (txt : String) :
    Except PyExc (String × Option String) :=
  (Attribute.parse_from_string txt).map (fun a => (a.name, a.description))

/-- Member line whose node text may be missing, as fed to
ParameterMember.parse_from_string. -/
def parse_member_text (t : Option String) :
    Except PyExc (String × Option String) :=
  match t with
  | none => .error (.typeError ("NoneType is not subscriptable"))
  | some s => ParameterMember.parse_from_string s

/-- The Members list comprehension of Parameter.parse_from_etree. -/
def parse_members_list : List Element → Except PyExc (List (String × Option String))
  | [] => .ok []
  | m :: rest => do
    let x ← parse_member_text m.text
    let xs ← parse_members_list rest
    pure (x :: xs)

/-- The nested-list loop of Parameter.parse_from_etree from entities.py: a
Default line demands an explicitly optional parameter and records the stripped
text after the colon; a Members line parses its nested list; other lines are
skipped. -/
def param_sections_go (pname : String) (required : Option Bool) :
    List Element → Option String → Option (List (String × Option String)) →
    Except PyExc (Option String × Option (List (String × Option String)))
  | [], defval, members => .ok (defval, members)
  | li :: rest, defval, members =>
    match li.text with
    | none => .error (.attributeError)
    | some t =>
      if pyStartsWith t ("Default") then
        if required = some true ∨ required = none then
          .error (.valueError
            ("Default value was specified for a non-optional parameter " ++ pname))
        else
          match pyFindChar ':' t.toList with
          | none => .error (.valueError ("Invalid format"))
          | some sp =>
            param_sections_go pname required rest
              (some (String.mk (trimChars (t.toList.drop (sp + 1))))) members
      else if pyStartsWith t ("Members") then
        match li.children with
        | first :: _ =>
          if first.tag = "ul" then
            match parse_members_list first.children with
            | .error e => .error e
            | .ok ms => param_sections_go pname required rest defval (some ms)
          else .error (.valueError ("Invalid format: " ++ pname))
        | [] => .error (.valueError ("Invalid format: " ++ pname))
      else param_sections_go pname required rest defval members

/-- parse_description from entities.py on the tail of a node list: html
serialisations joined with newlines until a stop tag. -/
def parse_description_go (htmlOf : Element → String) (stop : List String) :
    List Element → String × Nat
  | [] => ("", 0)
  | e :: rest =>
    if e.tag ∈ stop then ("", 0)
    else
      let dn := parse_description_go htmlOf stop rest
      (htmlOf e ++ "
" ++ dn.1, dn.2 + 1)

/-- parse_description from entities.py: description accumulated from the
given index, returning the stripped text (None when empty) and the index of
the first unconsumed element. -/
def parse_description (htmlOf : Element → String) (seq : List Element)
    (index : Nat) (stop : List String) : Option String × Nat :=
  let dn := parse_description_go htmlOf stop (seq.drop index)
  (if dn.1 = "" then none else some (pyStrip dn.1), index + dn.2)

/-- Parameter record as constructed by Parameter.parse_from_etree. -/
structure ParameterS where
  name : String
  type : String
  required : Option Bool
  description : Option String
  value : Option AttrValue
  default_value : Option String
  members : List (String × Option String)
deriving DecidableEq

/-- Parameter.parse_from_etree from entities.py. -/
def Parameter.parse_from_etree (htmlOf : Element → String) (node : Element) :
    Except PyExc ParameterS :=
  match node.text with
  | none => .error (.typeError ("NoneType is not subscriptable"))
  | some txt =>
    match Attribute.parse_from_string txt with
    | .error e => .error e
    | .ok attr =>
      let dn := parse_description htmlOf node.children 0 [("ul")]
      match node.children.drop dn.2 with
      | [] =>
        .ok ⟨attr.name, typeOrObject attr.rawType, attr.required, dn.1,
          attr.value, none, []⟩
      | ul :: _ =>
        match param_sections_go attr.name attr.required ul.children none none with
        | .error e => .error e
        | .ok dm =>
          .ok ⟨attr.name, typeOrObject attr.rawType, attr.required, dn.1,
            attr.value, dm.1, (dm.2.getD [])⟩


/-- Parameter view used by uri expansion: its name, declared default value
and declared value, both optional, with values of an abstract type. -/
structure ParamT (b : Type) where
  name : String
  default_value : Option b
  value : Option b

/-- The value-collection loop shared by Action.uri and Resource.uri from
entities.py: for each parameter, a present default value is written first and
a present declared value overwrites it, later parameters overwriting earlier
ones. -/
def addParamValues {b : Type} (values : List (String × b))
    (ps : List (ParamT b)) : List (String × b) :=
  ps.foldl
    (fun acc p =>
      let acc1 :=
        match p.default_value with
        | some d => dictUpd acc p.name d
        | none => acc
      match p.value with
      | some v => dictUpd acc1 p.name v
      | none => acc1)
    values

/-- Action view used by the path trie: request method, uri template and the
parameter lists of the parent Resource and of the Action itself (None when
the section is absent, as in the source). -/
structure ActionT (b : Type) where
  request_method : Option String
  uri_template : Option String
  resourceParams : Option (List (ParamT b))
  parameters : Option (List (ParamT b))

/-- Action.uri from entities.py: the template expanded with the parameter
values of the parent Resource chained before those of the Action; the
external uritemplate expander is abstracted as a function argument, and a
template-less Action (whose uri access raises AttributeError in Python) is
modelled as having no uri. -/
def Action.uriOf {b : Type} (expand : String → List (String × b) → String)
    (a : ActionT b) : Option String :=
  a.uri_template.map
    (fun t =>
      expand t (addParamValues []
        ((a.resourceParams.getD []) ++ (a.parameters.getD []))))

/-- The path trie as a total mapping from path and method to the recorded
action indices, defaultdict slots being empty lists. -/
def TrieF : Type := String → Option String → List Nat

/-- One paths[path][method].append(action) step of APIBlueprint._reset_trie. -/
def trieAdd (t : TrieF) (path : String) (m : Option String) (idx : Nat) :
    TrieF :=
  fun p mm => if p = path ∧ mm = m then t p mm ++ [idx] else t p mm

/-- The inner loop of APIBlueprint._reset_trie from mdparser.py: walk the
slash-separated pieces of the uri, skip empty pieces, extend the accumulated
path and record the action under it. -/
def trieAddPathsGo (idx : Nat) (m : Option String) :
    TrieF → String → List String → TrieF
  | t, _, [] => t
  | t, path, sub :: rest =>
    if sub ≠ "" then
      trieAddPathsGo idx m (trieAdd t (path ++ ("/") ++ sub) m idx)
        (path ++ ("/") ++ sub) rest
    else trieAddPathsGo idx m t path rest

/-- Recording one Action in the path trie: first under the root, then under
every accumulated path prefix of its uri. -/
def trieAddAction (t : TrieF) (idx : Nat) (m : Option String) (cu : String) :
    TrieF :=
  trieAddPathsGo idx m (trieAdd t ("/") m idx) ("") (pySplitChar '/' cu)

/-- One enumerated action step of the _reset_trie loop. -/
def resetTrieStep {b : Type} (expand : String → List (String × b) → String)
    (t : TrieF) (p : Nat × ActionT b) : TrieF :=
  match Action.uriOf expand p.2 with
  | none => t
  | some cu => trieAddAction t p.1 p.2.request_method cu

/-- APIBlueprint._reset_trie from mdparser.py over the enumerated actions of
the blueprint. -/
def reset_trie {b : Type} (expand : String → List (String × b) → String)
    (actions : List (ActionT b)) : TrieF :=
  actions.enum.foldl (resetTrieStep expand) (fun _ _ => [])

/-- Claim-side description of the trie keys: the prefixes obtained by
progressively appending the slash-separated segments of the uri to a base. -/
def pathPrefixGo (base : String) : List String → List String
  | [] => []
  | s :: rest =>
    if s = "" then pathPrefixGo base rest
    else (base ++ ("/") ++ s) :: pathPrefixGo (base ++ ("/") ++ s) rest

/-- Claim-side list of path prefixes of a uri. -/
def pathPrefixList (cu : String) : List String :=
  pathPrefixGo ("") (pySplitChar '/' cu)

/-- Effective contribution of one parameter to the expansion values of a
name: its declared value, else its default value, none when the name differs
or neither is present. -/
def paramContrib {b : Type} (p : ParamT b) (nm : String) : Option b :=
  if p.name = nm then
    match p.value with
    | some v => some v
    | none => p.default_value
  else none

/-- Effective contribution of a parameter list to the expansion values of a
name: the contribution of the last parameter contributing to that name. -/
def paramLast {b : Type} (ps : List (ParamT b)) (nm : String) : Option b :=
  (ps.filterMap (fun p => paramContrib p nm)).getLast?


/-- Attributes object as seen by the reference resolver: a node built during
parsing with its identity tag and optional symbolic reference, or a fresh
wrapper node built by the resolver around data structure children. -/
inductive AttrsObj where
  | orig (id : Nat) (reference : Option String)
  | wrapped (children : List Nat)
deriving DecidableEq

/-- The _reference slot of an Attributes object; wrapper nodes are created
with reference None. -/
def AttrsObj.referenceOf : AttrsObj → Option String
  | .orig _ r => r
  | .wrapped _ => none

/-- Value slot of a data structure Attribute: None, a plain string, or child
attributes given by identity tags. -/
inductive DSValue2 where
  | noneV
  | strV (s : String)
  | attrsV (children : List Nat)
deriving DecidableEq

/-- Entry of the data structures table during resolution: an original
DataStructure node, an Attributes object written by the first loop, or the
stored None written when a reference was unresolvable. -/
inductive DSVal where
  | dsNode (id : Nat) (reference : Option String) (value : DSValue2)
  | attrsNode (a : AttrsObj)
  | noneSlot
deriving DecidableEq

/-- The _reference consulted by the data structure loop; reading it on a
stored None raises AttributeError. -/
def ds_ref : DSVal → Except PyExc (Option String)
  | .dsNode _ r _ => .ok r
  | .attrsNode a => .ok a.referenceOf
  | .noneSlot => .error (.attributeError)

/-- Action record seen by the resolver. -/
structure ActionA where
  attributes : Option AttrsObj
deriving DecidableEq

/-- Resource record seen by the resolver. -/
structure ResourceA where
  attributes : Option AttrsObj
  actions : List ActionA
deriving DecidableEq

/-- Blueprint state touched by APIBlueprint._apply_attributes_references:
the data structures table, the resource attributes table, the flattened
resources, and the number of warnings written so far. -/
structure ResolveState where
  data_structures : List (String × DSVal)
  attrsTable : List (String × AttrsObj)
  resources : List ResourceA
  warnings : Nat
deriving DecidableEq

/-- First loop of _apply_attributes_references from mdparser.py: every data
structure entry carrying a reference is replaced by the attributes table
entry of that name, or by the stored None with a warning. -/
def applyDSRefs (attrsTable : List (String × AttrsObj)) :
    List (String × DSVal) → Except PyExc (List (String × DSVal) × Nat)
  | [] => .ok ([], 0)
  | (k, v) :: rest =>
    match ds_ref v with
    | .error e => .error e
    | .ok r =>
      match applyDSRefs attrsTable rest with
      | .error e => .error e
      | .ok rw =>
        match r with
        | none => .ok ((k, v) :: rw.1, rw.2)
        | some ref =>
          match lookupAssoc attrsTable ref with
          | some a => .ok ((k, .attrsNode a) :: rw.1, rw.2)
          | none => .ok ((k, .noneSlot) :: rw.1, rw.2 + 1)

/-- Resource branch of the second loop of _apply_attributes_references: a
reference-carrying resource Attributes is replaced by the attributes table
entry, else by the data structures slot, whose assignment must satisfy the
Attributes type assertion of the property setter; an unresolved reference
leaves None and warns. -/
def resolveResourceAttr (attrsTable : List (String × AttrsObj))
    (ds : List (String × DSVal)) (old : Option AttrsObj) :
    Except PyExc (Option AttrsObj × Nat) :=
  match old with
  | none => .ok (none, 0)
  | some att =>
    match att.referenceOf with
    | none => .ok (some att, 0)
    | some ref =>
      match lookupAssoc attrsTable ref with
      | some a => .ok (some a, 0)
      | none =>
        match lookupAssoc ds ref with
        | none => .ok (none, 1)
        | some (.noneSlot) => .ok (none, 1)
        | some (.attrsNode a) => .ok (some a, 0)
        | some (.dsNode _ _ _) => .error (.assertionError)

/-- Action branch of the second loop of _apply_attributes_references: an
action holding the very object the resource held is relinked to the new
resource attributes; an action with its own reference resolves against the
attributes table, else wraps the children of the data structure entry in a
fresh Attributes node; when neither table knows the name, the unresolved
reference node stays in place and the None-check that guards the warning
never fires. -/
def resolveActionAttr (attrsTable : List (String × AttrsObj))
    (ds : List (String × DSVal)) (old newR : Option AttrsObj)
    (aatt : Option AttrsObj) : Except PyExc (Option AttrsObj × Nat) :=
  if aatt = old then .ok (newR, 0)
  else
    match aatt with
    | none => .ok (none, 0)
    | some att =>
      match att.referenceOf with
      | none => .ok (some att, 0)
      | some ref =>
        match lookupAssoc attrsTable ref with
        | some aval => .ok (some aval, 0)
        | none =>
          match lookupAssoc ds ref with
          | none => .ok (some att, 0)
          | some (.noneSlot) => .ok (some att, 0)
          | some (.dsNode _ _ value) =>
            (match value with
             | .attrsV ch => .ok (some (.wrapped ch), 0)
             | .noneV => .error (.typeError ("NoneType is not iterable"))
             | .strV _ => .error (.assertionError))
          | some (.attrsNode _) => .error (.attributeError)

/-- The action loop of one resource. -/
def resolveActions (attrsTable : List (String × AttrsObj))
    (ds : List (String × DSVal)) (old newR : Option AttrsObj) :
    List ActionA → Except PyExc (List ActionA × Nat)
  | [] => .ok ([], 0)
  | a :: rest =>
    match resolveActionAttr attrsTable ds old newR a.attributes with
    | .error e => .error e
    | .ok na =>
      match resolveActions attrsTable ds old newR rest with
      | .error e => .error e
      | .ok nrest => .ok (⟨na.1⟩ :: nrest.1, na.2 + nrest.2)

/-- The resource loop of _apply_attributes_references. -/
def resolveResources (attrsTable : List (String × AttrsObj))
    (ds : List (String × DSVal)) :
    List ResourceA → Except PyExc (List ResourceA × Nat)
  | [] => .ok ([], 0)
  | r :: rest =>
    match resolveResourceAttr attrsTable ds r.attributes with
    | .error e => .error e
    | .ok ra =>
      match resolveActions attrsTable ds r.attributes ra.1 r.actions with
      | .error e => .error e
      | .ok acts =>
        match resolveResources attrsTable ds rest with
        | .error e => .error e
        | .ok rrest =>
          .ok (⟨ra.1, acts.1⟩ :: rrest.1, ra.2 + acts.2 + rrest.2)

/-- APIBlueprint._apply_attributes_references from mdparser.py: the data
structure loop followed by the resource and action loops, accumulating
warnings. -/
def apply_attributes_references (st : ResolveState) :
    Except PyExc ResolveState :=
  match applyDSRefs st.attrsTable st.data_structures with
  | .error e => .error e
  | .ok dsw =>
    match resolveResources st.attrsTable dsw.1 st.resources with
    | .error e => .error e
    | .ok rsw =>
      .ok ⟨dsw.1, st.attrsTable, rsw.1, st.warnings + dsw.2 + rsw.2⟩

/-! Auxiliary lemmas and claim theorems. -/

theorem findIdx?_some_take_drop {α} {p : α → Bool} {l : List α} {i : Nat}
    (h : l.findIdx? p = some i) :
    l.take i = l.takeWhile (fun a => !(p a)) ∧
      l.drop i = l.dropWhile (fun a => !(p a)) := by
  induction l generalizing i with
  | nil => simp at h
  | cons x xs ih =>
    rw [List.findIdx?_cons] at h
    by_cases hp : p x
    · simp [hp] at h
      subst h
      simp [List.takeWhile_cons, List.dropWhile_cons, hp]
    · simp [hp, List.findIdx?_start_succ] at h
      obtain ⟨j, hj, rfl⟩ := h
      have := ih hj
      simp [List.takeWhile_cons, List.dropWhile_cons, hp, this.1, this.2]

theorem findIdx?_none_take_drop {α} {p : α → Bool} {l : List α}
    (h : ∀ a ∈ l, p a = false) :
    l.takeWhile (fun a => !(p a)) = l ∧ l.dropWhile (fun a => !(p a)) = [] := by
  induction l with
  | nil => simp
  | cons x xs ih =>
    have hx := h x (by simp)
    have hxs := ih (fun a ha => h a (by simp [ha]))
    simp [List.takeWhile_cons, List.dropWhile_cons, hx, hxs.1, hxs.2]

theorem lastIdxOf_eq_none_iff {c : Char} {l : List Char} :
    lastIdxOf c l = none ↔ c ∉ l := by
  unfold lastIdxOf
  simp only [Option.map_eq_none', List.findIdx?_eq_none_iff, List.mem_reverse,
    decide_eq_false_iff_not]
  constructor
  · intro h hc
    exact h c hc rfl
  · intro h x hx hxc
    exact h (hxc ▸ hx)

theorem lastIdxOf_append_cons {pre post : List Char} {c : Char} (hpost : c ∉ post) :
    lastIdxOf c (pre ++ c :: post) = some pre.length := by
  have h1 : post.reverse.findIdx? (fun x => x = c) = none := by
    rw [List.findIdx?_eq_none_iff]
    intro x hx
    rw [List.mem_reverse] at hx
    simp only [decide_eq_false_iff_not]
    intro hxc
    exact hpost (hxc ▸ hx)
  have h2 : (c :: pre.reverse).findIdx? (fun x => x = c) = some 0 := by
    simp [List.findIdx?_cons]
  unfold lastIdxOf
  rw [List.reverse_append, List.reverse_cons, List.append_assoc,
    List.singleton_append, List.findIdx?_append, h1]
  simp only [Option.none_or, h2, Option.map_some', Nat.zero_add,
    List.length_reverse, List.length_append, List.length_cons]
  congr 1
  omega

theorem splitMethodTemplate_eq_some {part : List Char} {sep : Nat}
    (h : firstSepPos part = some sep) :
    splitMethodTemplate part =
      (some (String.mk (part.take sep)),
       some (String.mk (trimChars (part.drop sep)))) := by
  have hd := findIdx?_some_take_drop h
  have hlt : sep < part.length := by
    rcases List.findIdx?_eq_some_iff_findIdx_eq.mp h with ⟨h1, _⟩
    exact h1
  have hne : ¬ (part.dropWhile (fun c => !(isSpaceTab c))).isEmpty := by
    rw [← hd.2, List.isEmpty_iff, List.drop_eq_nil_iff]
    omega
  unfold splitMethodTemplate
  simp [hne, hd.1, hd.2]

theorem splitMethodTemplate_eq_none {part : List Char}
    (h : firstSepPos part = none) :
    splitMethodTemplate part = (none, some (String.mk part)) := by
  have hd := findIdx?_none_take_drop (List.findIdx?_eq_none_iff.mp h)
  unfold splitMethodTemplate
  simp [hd.2]

theorem plainMethodTemplate_eq_some {t : List Char} {sep : Nat}
    (h : firstSepPos t = some sep) :
    plainMethodTemplate t =
      if String.mk (t.take sep) ∈ HTTP_METHODS then
        (some (String.mk (t.take sep)),
         some (String.mk (trimChars (t.drop (sep + 1)))))
      else (none, some (String.mk t)) := by
  have hd := findIdx?_some_take_drop h
  have hlt : sep < t.length := by
    rcases List.findIdx?_eq_some_iff_findIdx_eq.mp h with ⟨h1, _⟩
    exact h1
  have hdrop : t.drop sep ≠ [] := by
    intro hnil
    rw [List.drop_eq_nil_iff] at hnil
    omega
  rcases hcons : t.drop sep with _ | ⟨c, rest⟩
  · exact absurd hcons hdrop
  · have hrest : t.drop (sep + 1) = rest := by
      have : t.drop (sep + 1) = (t.drop sep).drop 1 := by
        rw [List.drop_drop]
      rw [this, hcons]
      rfl
    unfold plainMethodTemplate
    rw [← hd.2, hcons, ← hd.1, hrest]

theorem plainMethodTemplate_eq_none {t : List Char} (h : firstSepPos t = none) :
    plainMethodTemplate t = (none, some (String.mk t)) := by
  have hd := findIdx?_none_take_drop (List.findIdx?_eq_none_iff.mp h)
  unfold plainMethodTemplate
  rw [hd.2]

/-- Claim C6 (amended): computed on the whitespace-stripped text, which must
be nonempty: when it ends with a closing square bracket, a ValueError is
raised if it has no opening square bracket, and otherwise the part before the
last opening bracket (stripped) is the name while the bracketed part is split
at its first space or tab into method and template when a separator is
present, else taken whole as the template with no method; when it does not
end with a closing bracket, the first space-or-tab-delimited token is the
method with the stripped remainder as template provided a separator exists
and the token is one of GET POST PUT PATCH DELETE HEAD, and otherwise the
whole stripped text is the template with no name and no method. -/
theorem claim_c6_resource_parse_definition (txt : String)
    (t : List Char) (ht : trimChars txt.toList = t) (hne : t ≠ []) :
    (t.getLast? = some ']' → '[' ∉ t →
        Resource.parse_definition txt = .error (.valueError ("Invalid format")))
    ∧ (∀ pre post, t = pre ++ '[' :: post → '[' ∉ post → t.getLast? = some ']' →
        Resource.parse_definition txt =
          .ok (some (String.mk (trimChars pre)),
               (splitMethodTemplate (trimChars post.dropLast)).1,
               (splitMethodTemplate (trimChars post.dropLast)).2))
    ∧ (∀ c, t.getLast? = some c → c ≠ ']' →
        Resource.parse_definition txt =
          .ok (none, (plainMethodTemplate t).1, (plainMethodTemplate t).2)) := by
  unfold Resource.parse_definition
  rw [ht]
  dsimp only
  refine ⟨?_, ?_, ?_⟩
  · intro hlast hnotin
    rw [hlast, (lastIdxOf_eq_none_iff).mpr hnotin]
    simp
  · intro pre post hdecomp hnotin hlast
    rw [hlast]
    subst hdecomp
    rw [lastIdxOf_append_cons hnotin]
    have htake : (pre ++ '[' :: post).take pre.length = pre := List.take_left _ _
    have hdrop : (pre ++ '[' :: post).drop (pre.length + 1) = post := by
      have h2 : (pre ++ '[' :: post).drop (pre.length + 1)
          = ((pre ++ '[' :: post).drop pre.length).drop 1 := by
        rw [List.drop_drop, Nat.add_comm]
      rw [h2, List.drop_left]
      rfl
    simp only [htake, hdrop]
    cases hsep : firstSepPos (trimChars post.dropLast) with
    | some sep => simp [splitMethodTemplate_eq_some hsep]
    | none => simp [splitMethodTemplate_eq_none hsep]
  · intro c hlast hc
    rw [hlast]
    simp only [if_neg hc]
    cases hsep : firstSepPos t with
    | some sep =>
      rw [plainMethodTemplate_eq_some hsep]
      by_cases hm : String.mk (t.take sep) ∈ HTTP_METHODS
      · simp [hm]
      · simp [hm]
    | none => simp [plainMethodTemplate_eq_none hsep]

/-- Claim C6 counterexample: on the input GET the function returns no method
and the whole text as template, while the claim predicts method GET with an
empty-template remainder, because the first space-delimited token is only
consulted when a separator is actually present. -/
theorem claim_c6_counterexample :
    Resource.parse_definition ("GET") = .ok (none, none, some ("GET")) ∧
      Resource.parse_definition ("GET") ≠ .ok (none, some ("GET"), some ("")) := by
  constructor
  · rfl
  · decide

/-- Claim C6 witness: the characterization applied to a concrete bracketed
resource heading. -/
theorem claim_c6_witness :
    Resource.parse_definition ("Note [POST /notes]") =
      .ok (some ("Note"), some ("POST"), some ("/notes")) := by
  have h := (claim_c6_resource_parse_definition ("Note [POST /notes]")
      (("Note [POST /notes]").toList) (by decide) (by decide)).2.1
      (("Note ").toList) (("POST /notes]").toList) (by decide) (by decide) (by decide)
  exact h.trans (by decide)

/-- Claim C9: an Action without requests has length one and iterating it
yields exactly one pair, the synthetic Request named default carrying no media
type, headers, body or schema but the Action attributes, together with the
flattened list of all the Action responses; an Action with requests yields
each request with its own code-keyed responses. -/
theorem claim_c9_action_iteration (a : ActionIt) :
    (a.requests = [] →
      Action.lengthVal a = 1 ∧
        Action.iterPairs a =
          [(⟨some ("default"), none, none, none, a.attributes, none, none, []⟩,
            .flat ((a.responses.map (fun p => p.2)).flatten))])
    ∧ (a.requests ≠ [] →
        Action.iterPairs a =
          a.requests.map (fun q => (q, .byCode (Request.responsesByCode q)))) := by
  constructor
  · intro h
    unfold Action.lengthVal Action.iterPairs Action.defaultRequest
    simp [h]
  · intro h
    unfold Action.iterPairs
    simp [List.isEmpty_iff, h]

/-- Claim C9 witness at a concrete request-free action. -/
theorem claim_c9_witness :
    Action.lengthVal ⟨some 7, [], [(200, [⟨200, 3⟩]), (404, [⟨404, 4⟩])]⟩ = 1 ∧
      Action.iterPairs ⟨some 7, [], [(200, [⟨200, 3⟩]), (404, [⟨404, 4⟩])]⟩ =
        [(⟨some ("default"), none, none, none, some 7, none, none, []⟩,
          .flat [⟨200, 3⟩, ⟨404, 4⟩])] := by
  have h := (claim_c9_action_iteration
      ⟨some 7, [], [(200, [⟨200, 3⟩]), (404, [⟨404, 4⟩])]⟩).1 rfl
  exact ⟨h.1, h.2.trans (by decide)⟩

/-- Claim C3: after the inheritance loop at the end of Action parsing, a
Request that declared no attributes holds the very attributes object of the
Action, while a Request that declared attributes is unchanged. -/
theorem claim_c3_request_attribute_inheritance (actionAttributes : Option Nat)
    (reqs : List RequestS) (i : Nat) (q : RequestS) (hq : reqs[i]? = some q) :
    (q.attributes = none →
      (inherit_request_attributes actionAttributes reqs)[i]? =
        some { q with attributes := actionAttributes })
    ∧ (q.attributes ≠ none →
      (inherit_request_attributes actionAttributes reqs)[i]? = some q) := by
  unfold inherit_request_attributes
  constructor
  · intro h
    rw [List.getElem?_map, hq]
    simp [h]
  · intro h
    rw [List.getElem?_map, hq]
    simp [h]

/-- Claim C3 witness at a two-request action. -/
theorem claim_c3_witness :
    (inherit_request_attributes (some 5)
        [⟨some ("a"), none, none, none, none, none, none, []⟩,
         ⟨some ("b"), none, none, none, some 9, none, none, []⟩])[0]? =
      some ⟨some ("a"), none, none, none, some 5, none, none, []⟩ := by
  have h := (claim_c3_request_attribute_inheritance (some 5)
      [⟨some ("a"), none, none, none, none, none, none, []⟩,
       ⟨some ("b"), none, none, none, some 9, none, none, []⟩] 0
      ⟨some ("a"), none, none, none, none, none, none, []⟩ rfl).1 rfl
  exact h

theorem addRespToRequest_length (reqs : List ReqSlot) (r : Nat)
    (inst : RespInstance) : (addRespToRequest reqs r inst).length = reqs.length := by
  induction reqs generalizing r with
  | nil => cases r <;> rfl
  | cons s rest ih =>
    cases r with
    | zero => rfl
    | succ n => simp [addRespToRequest, ih]

theorem addRespToRequest_get_self {reqs : List ReqSlot} {r : Nat}
    {inst : RespInstance} :
    (addRespToRequest reqs r inst)[r]? =
      (reqs[r]?).map (fun s => { s with responses := s.responses ++ [inst] }) := by
  induction reqs generalizing r with
  | nil => cases r <;> rfl
  | cons s rest ih =>
    cases r with
    | zero => simp [addRespToRequest]
    | succ n => simpa [addRespToRequest] using ih

theorem addRespToRequest_get_other {reqs : List ReqSlot} {r q : Nat}
    {inst : RespInstance} (h : q ≠ r) :
    (addRespToRequest reqs r inst)[q]? = reqs[q]? := by
  induction reqs generalizing r q with
  | nil => cases r <;> rfl
  | cons s rest ih =>
    cases r with
    | zero =>
      cases q with
      | zero => exact absurd rfl h
      | succ m => simp [addRespToRequest]
    | succ n =>
      cases q with
      | zero => simp [addRespToRequest]
      | succ m => simpa [addRespToRequest] using ih (fun hc => h (by rw [hc]))

theorem updateRequestsGo_length (payload : Nat) (ps : List Nat) :
    ∀ (reqs : List ReqSlot) (i : Nat),
      (updateRequestsGo payload reqs i ps).length = reqs.length := by
  induction ps with
  | nil => intro reqs i; rfl
  | cons r rest ih =>
    intro reqs i
    simp [updateRequestsGo, ih, addRespToRequest_length]

theorem updateRequestsGo_get_notmem {payload : Nat} {ps : List Nat} {r : Nat}
    (h : r ∉ ps) :
    ∀ (reqs : List ReqSlot) (i : Nat),
      (updateRequestsGo payload reqs i ps)[r]? = reqs[r]? := by
  induction ps with
  | nil => intro reqs i; rfl
  | cons p rest ih =>
    intro reqs i
    have hpr : r ≠ p := fun hc => h (by simp [hc])
    rw [updateRequestsGo, ih (fun hc => h (by simp [hc])),
      addRespToRequest_get_other hpr]

theorem updateRequestsGo_get_mem {payload : Nat} {ps : List Nat}
    (hnodup : ps.Nodup) :
    ∀ (reqs : List ReqSlot) (i j r : Nat), ps[j]? = some r →
      (updateRequestsGo payload reqs i ps)[r]? =
        (reqs[r]?).map
          (fun s => { s with responses := s.responses ++ [⟨payload, i + j, some r⟩] }) := by
  induction ps with
  | nil => intro reqs i j r h; simp at h
  | cons p rest ih =>
    intro reqs i j r h
    rcases List.nodup_cons.mp hnodup with ⟨hpnot, hrest⟩
    cases j with
    | zero =>
      simp at h
      subst h
      rw [updateRequestsGo, updateRequestsGo_get_notmem hpnot,
        addRespToRequest_get_self]
      simp
    | succ m =>
      simp only [List.getElem?_cons_succ] at h
      have hrm : r ∈ rest := List.getElem?_mem h
      have hrp : r ≠ p := fun hc => hpnot (hc ▸ hrm)
      have harith : i + (m + 1) = (i + 1) + m := by omega
      rw [updateRequestsGo, ih hrest _ (i + 1) m r h,
        addRespToRequest_get_other hrp, harith]

theorem respInstancesGo_length (payload : Nat) (ps : List Nat) :
    ∀ i, (respInstancesGo payload i ps).length = ps.length := by
  induction ps with
  | nil => intro i; rfl
  | cons p rest ih => intro i; simp [respInstancesGo, ih]

theorem respInstancesGo_get (payload : Nat) (ps : List Nat) :
    ∀ (i j r : Nat), ps[j]? = some r →
      (respInstancesGo payload i ps)[j]? =
        some (⟨payload, i + j, some r⟩ : RespInstance) := by
  induction ps with
  | nil => intro i j r h; simp at h
  | cons p rest ih =>
    intro i j r h
    cases j with
    | zero =>
      simp at h
      subst h
      simp [respInstancesGo]
    | succ m =>
      simp only [List.getElem?_cons_succ] at h
      have harith : i + (m + 1) = (i + 1) + m := by omega
      rw [respInstancesGo, List.getElem?_cons_succ, ih (i + 1) m r h, harith]

/-- Claim C4: when a Response item is parsed while n requests are pending,
the action records n response instances, instance number j carrying a
back-reference to pending request number j, with instance zero the canonical
original and every later instance a deep copy; each pending request receives
exactly its own instance in its responses; the clear flag is raised so that
the next Request item drops the pending list down to itself alone. -/
theorem claim_c4_response_fanout (st : ActionParseState) (payload : Nat)
    (hnodup : st.pending.Nodup)
    (hb : ∀ r ∈ st.pending, r < st.requests.length)
    (hne : st.pending ≠ []) :
    ((action_on_response st payload).responses.length =
        st.responses.length + st.pending.length)
    ∧ (∀ j r, st.pending[j]? = some r →
        (action_on_response st payload).responses[st.responses.length + j]? =
            some ⟨payload, j, some r⟩
          ∧ ∃ slot, st.requests[r]? = some slot ∧
              (action_on_response st payload).requests[r]? =
                some { slot with
                        responses := slot.responses ++ [⟨payload, j, some r⟩] })
    ∧ (action_on_response st payload).clearFlag = true
    ∧ (∀ q, (action_on_request (action_on_response st payload) q).pending =
        [st.requests.length]) := by
  have hpe : ¬ st.pending.isEmpty := by
    simpa [List.isEmpty_iff] using hne
  refine ⟨?_, ?_, rfl, ?_⟩
  · simp [action_on_response, hpe, respInstancesGo_length]
  · intro j r h
    constructor
    · have hj : j < st.pending.length := by
        by_contra hc
        rw [List.getElem?_eq_none (by omega)] at h
        exact Option.noConfusion h
      simp only [action_on_response, hpe, if_false]
      rw [List.getElem?_append_right (by omega)]
      have : st.responses.length + j - st.responses.length = j := by omega
      rw [this]
      simpa using respInstancesGo_get payload st.pending 0 j r h
    · have hr : r < st.requests.length := hb r (List.getElem?_mem h)
      obtain ⟨slot, hslot⟩ : ∃ slot, st.requests[r]? = some slot := by
        rw [List.getElem?_eq_getElem hr]
        exact ⟨_, rfl⟩
      refine ⟨slot, hslot, ?_⟩
      simp only [action_on_response]
      rw [updateRequestsGo_get_mem hnodup st.requests 0 j r h, hslot]
      simp
  · intro q
    simp [action_on_request, action_on_response, updateRequestsGo_length]

/-- Claim C4 witness: one Response following two pending Requests. -/
theorem claim_c4_witness :
    (action_on_response ⟨[⟨1, []⟩, ⟨2, []⟩], [], [0, 1], false⟩ 9).responses.length
        = 0 + 2 ∧
      (action_on_response ⟨[⟨1, []⟩, ⟨2, []⟩], [], [0, 1], false⟩ 9).requests[1]? =
        some ⟨2, [⟨9, 1, some 1⟩]⟩ := by
  have h := claim_c4_response_fanout ⟨[⟨1, []⟩, ⟨2, []⟩], [], [0, 1], false⟩ 9
      (by decide)
      (by intro r hr; simp at hr; rcases hr with rfl | rfl <;> decide)
      (by decide)
  refine ⟨h.1.trans (by decide), ?_⟩
  obtain ⟨slot, hslot, hreq⟩ := (h.2.1 1 1 rfl).2
  have hs : some (⟨2, []⟩ : ReqSlot) = some slot := by
    rw [← hslot]
    rfl
  cases hs
  simpa using hreq

/-- Claim C10: merge is not atomic on failure: when the data structure tables
collide the ValueError is raised only after the receiver name and overview
have been concatenated with those of the argument, while the up-front
TypeError for a non-blueprint argument leaves the receiver untouched. -/
theorem claim_c10_merge_not_atomic (self other : BlueprintM)
    (hcol : self.data_structures.any
        (fun p => other.data_structures.any (fun q => q.1 = p.1)) = true)
    (hn : truthyStr other.name = true) (ho : truthyStr other.overview = true)
    (hsn : ∃ sn, self.name = some sn) (hso : ∃ so, self.overview = some so) :
    (∃ sn onm so oo, self.name = some sn ∧ other.name = some onm ∧
        self.overview = some so ∧ other.overview = some oo ∧
        APIBlueprint.merge self (.bp other) =
          ({ self with name := some (sn ++ " & " ++ onm),
                       overview := some (so ++ "\n" ++ oo) },
           some (.valueError ("Data structures collide"))))
    ∧ (∀ s, APIBlueprint.merge s .nonBlueprint =
        (s, some (.typeError
          ("Merge with plueprint.mdparser.APIBlueprint objects only")))) := by
  obtain ⟨sn, hsn⟩ := hsn
  obtain ⟨so, hso⟩ := hso
  obtain ⟨onm, honm⟩ : ∃ onm, other.name = some onm := by
    cases h : other.name with
    | none => rw [h] at hn; simp [truthyStr] at hn
    | some x => exact ⟨x, rfl⟩
  obtain ⟨oo, hoo⟩ : ∃ oo, other.overview = some oo := by
    cases h : other.overview with
    | none => rw [h] at ho; simp [truthyStr] at ho
    | some x => exact ⟨x, rfl⟩
  refine ⟨⟨sn, onm, so, oo, hsn, honm, hso, hoo, ?_⟩, fun s => rfl⟩
  simp only [APIBlueprint.merge, hn, if_true, hsn, honm]
  simp only [mergeWithOverview, ho, if_true]
  simp only [hso, hoo]
  simp only [mergeRest, hcol, if_true]
  rw [honm] at hn
  simp [hn]

/-- Claim C10 witness: two concrete blueprints with a colliding data structure
name: the error is the collision ValueError yet the receiver name was already
concatenated. -/
theorem claim_c10_witness :
    (APIBlueprint.merge ⟨some ("A"), some ("ov"), [(("D"), 1)], []⟩
        (.bp ⟨some ("B"), some ("ow"), [(("D"), 2)], []⟩)).2 =
      some (.valueError ("Data structures collide")) ∧
    (APIBlueprint.merge ⟨some ("A"), some ("ov"), [(("D"), 1)], []⟩
        (.bp ⟨some ("B"), some ("ow"), [(("D"), 2)], []⟩)).1.name =
      some ("A & B") := by
  obtain ⟨sn, onm, so, oo, hsn, honm, hso, hoo, h⟩ :=
    (claim_c10_merge_not_atomic ⟨some ("A"), some ("ov"), [(("D"), 1)], []⟩
      ⟨some ("B"), some ("ow"), [(("D"), 2)], []⟩ (by decide) (by decide)
      (by decide) ⟨("A"), rfl⟩ ⟨("ov"), rfl⟩).1
  simp only [Option.some.injEq] at hsn honm
  constructor
  · rw [h]
  · rw [h]
    simp [← hsn, ← honm]

theorem parse_metadata_go_err (lines : List String) :
    ∀ acc, errOf (parse_metadata_go acc lines) = lines.findSome? lineFailure := by
  induction lines with
  | nil => intro acc; rfl
  | cons line rest ih =>
    intro acc
    rw [parse_metadata_go, List.findSome?_cons]
    cases hc : pyFindChar ':' line.toList with
    | none =>
      have hc2 : pyFindChar ':' line.data = none := hc
      simp [lineFailure, hc, hc2, errOf]
    | some p =>
      have hc2 : pyFindChar ':' line.data = some p := hc
      cases p with
      | zero => simp [lineFailure, hc, hc2, errOf]
      | succ n =>
        have hn : ¬ (n + 1 < 1) := by omega
        simp [lineFailure, hc, hc2, hn, ih]

/-- Claim C1 (amended): the parse head fails with BlueprintParseError exactly
when the root has fewer than three children, or its first child is not a
paragraph, or the first offending metadata line has its colon in position
zero, or the second child is not an h1 heading; a metadata line with no colon
at all fails with ValueError instead of BlueprintParseError; the FORMAT
metadata entry is never consulted, so its absence is not an error. -/
theorem claim_c1_parse_head_failures (root : List Element) :
    errOf (parse_head root) = head_failure_claim root := by
  unfold parse_head head_failure_claim
  by_cases h3 : root.length < 3
  · simp [h3, errOf]
  · rcases root with _ | ⟨r0, _ | ⟨r1, rest⟩⟩
    · simp at h3
    · simp at h3
    · simp only [h3, if_false]
      by_cases hp : r0.tag ≠ "p"
      · simp [hp, errOf]
      · simp only [hp, if_false]
        cases ht : r0.text with
        | none => simp [errOf]
        | some t =>
          dsimp only
          have herr := parse_metadata_go_err (pySplitChar '\n' t) []
          cases hm : parse_metadata_go [] (pySplitChar '\n' t) with
          | error e =>
            rw [hm] at herr
            simp only [errOf] at herr
            rw [← herr]
            simp [hm, errOf]
          | ok md =>
            rw [hm] at herr
            simp only [errOf] at herr
            rw [← herr]
            by_cases hh : r1.tag ≠ "h1"
            · simp [hm, hh, errOf]
            · simp [hm, hh, errOf]

/-- Claim C1 counterexample: a metadata line with no colon surfaces as
ValueError rather than BlueprintParseError, and a document without any FORMAT
metadata parses successfully with the format property None. -/
theorem claim_c1_counterexample :
    parse_head [⟨"p", some ("nocolon"), []⟩, ⟨"h1", some ("Name"), []⟩,
        ⟨"p", some ("x: y"), []⟩] =
      .error (.valueError ("substring not found")) ∧
    parse_head [⟨"p", some ("Host: example"), []⟩, ⟨"h1", some ("Name"), []⟩,
        ⟨"p", none, []⟩] =
      .ok ([(("Host"), ("example"))], some ("Name")) ∧
    APIBlueprint.format [(("Host"), ("example"))] = none := by
  refine ⟨rfl, ?_, rfl⟩
  rfl

theorem extract_reference_of_bracket_form (name : String) (h : name ≠ "") :
    extract_reference ("[" ++ name ++ "][]") = some name := by
  have hdata : ("[" ++ name ++ "][]").toList
      = '[' :: (name.toList ++ [']', '[', ']']) := by
    show ("[" ++ name ++ "][]").data = _
    rw [String.data_append, String.data_append]
    rfl
  have hne : name.toList ≠ [] := by
    intro hc
    apply h
    have he : name = String.mk name.toList := rfl
    rw [he, hc]
  have hlen : ("[" ++ name ++ "][]").toList.length = name.toList.length + 4 := by
    rw [hdata]
    simp
  unfold extract_reference
  rw [hdata]
  have hgt : 4 < ('[' :: (name.toList ++ [']', '[', ']'])).length := by
    have hp : 0 < name.toList.length := List.length_pos.mpr hne
    simp only [List.length_cons, List.length_append]
    omega
  have hrev : ('[' :: (name.toList ++ [']', '[', ']'])).reverse.take 3
      = [']', '[', ']'] := by
    rw [List.reverse_cons, List.reverse_append]
    show (([']', '[', ']'] : List Char) ++ (name.toList.reverse ++ ['['])).take 3
      = [']', '[', ']']
    rw [List.take_left' (by rfl)]
  have hslice : (('[' :: (name.toList ++ [']', '[', ']'])).drop 1).take
      (('[' :: (name.toList ++ [']', '[', ']'])).length - 4) = name.toList := by
    have hl : ('[' :: (name.toList ++ [']', '[', ']'])).length - 4
        = name.toList.length := by
      simp
    rw [hl]
    show (name.toList ++ [']', '[', ']']).take name.toList.length = name.toList
    exact List.take_left _ _
  rw [if_pos ⟨hgt, rfl, hrev⟩, hslice]
  rfl

/-- Claim C2: a Request or Response with null body, schema, headers and
attributes whose sole child is a p or pre node containing exactly a bracketed
NAME reference is marked as a reference to NAME, and resolving it against a
model table holding NAME copies the model name (only when the section had
none), description, media type, headers, attributes, body and schema into the
section. -/
theorem claim_c2_payload_model_reference (obj : PayloadSection) (node : Element)
    (child : Element) (name : String) (models : List (String × PayloadSection))
    (m : PayloadSection)
    (hH : obj.headers = none) (hA : obj.attributes = none)
    (hB : obj.body = none) (hS : obj.schema = none)
    (hch : node.children = [child]) (htag : child.tag = "p" ∨ child.tag = "pre")
    (htxt : get_pre_contents child = some ("[" ++ name ++ "][]"))
    (hname : name ≠ "") (hm : lookupAssoc models name = some m) :
    rr_mark_reference obj node = some { obj with reference := some name } ∧
      (resolve_rr_reference models { obj with reference := some name }).1 =
        { obj with
            reference := some name,
            name := if obj.name = none then m.name else obj.name,
            description := m.description,
            media_type := m.media_type,
            headers := m.headers,
            attributes := m.attributes,
            body := m.body,
            schema := m.schema } := by
  constructor
  · unfold rr_mark_reference
    rw [if_pos ⟨hH, hA, hB, hS⟩, hch]
    dsimp only
    rw [if_pos htag, htxt]
    dsimp only
    rw [extract_reference_of_bracket_form name hname]
  · unfold resolve_rr_reference
    dsimp only
    rw [hm]
    unfold copy_from_payload
    rfl

/-- Claim C2 witness: a concrete response body of the reference form resolved
against a one-entry model table. -/
theorem claim_c2_witness :
    rr_mark_reference ⟨none, none, none, none, none, none, none, none⟩
        ⟨"li", some ("Response 200"), [⟨"p", some ("[M][]"), []⟩]⟩ =
      some ⟨none, none, none, none, none, none, none, some ("M")⟩ ∧
      (resolve_rr_reference
          [(("M"), ⟨some ("M"), some [("application"), ("json")], some ("d"),
            some 1, some 2, some 3, some 4, none⟩)]
          ⟨none, none, none, none, none, none, none, some ("M")⟩).1 =
        ⟨some ("M"), some [("application"), ("json")], some ("d"),
          some 1, some 2, some 3, some 4, some ("M")⟩ := by
  have h := claim_c2_payload_model_reference
      ⟨none, none, none, none, none, none, none, none⟩
      ⟨"li", some ("Response 200"), [⟨"p", some ("[M][]"), []⟩]⟩
      ⟨"p", some ("[M][]"), []⟩ ("M")
      [(("M"), ⟨some ("M"), some [("application"), ("json")], some ("d"),
        some 1, some 2, some 3, some 4, none⟩)]
      ⟨some ("M"), some [("application"), ("json")], some ("d"),
        some 1, some 2, some 3, some 4, none⟩
      rfl rfl rfl rfl rfl (Or.inl rfl) (by decide) (by decide) rfl
  exact ⟨h.1, h.2.trans (by decide)⟩

theorem param_sections_go_default_optional (pname : String)
    (required : Option Bool) (lis : List Element) :
    ∀ defval members res,
      param_sections_go pname required lis defval members = .ok res →
      res.1 ≠ none → (defval ≠ none ∨ required = some false) := by
  induction lis with
  | nil =>
    intro defval members res h hne
    rw [param_sections_go] at h
    cases h
    exact Or.inl hne
  | cons li rest ih =>
    intro defval members res h hne
    rw [param_sections_go] at h
    cases ht : li.text with
    | none => rw [ht] at h; exact absurd h (by simp)
    | some t =>
      rw [ht] at h
      dsimp only at h
      by_cases hd : pyStartsWith t ("Default") = true
      · rw [if_pos hd] at h
        by_cases hr : required = some true ∨ required = none
        · rw [if_pos hr] at h
          exact absurd h (by simp)
        · right
          rcases required with _ | b
          · exact absurd (Or.inr rfl) hr
          · cases b
            · rfl
            · exact absurd (Or.inl rfl) hr
      · rw [if_neg hd] at h
        by_cases hm : pyStartsWith t ("Members") = true
        · rw [if_pos hm] at h
          cases hch : li.children with
          | nil => rw [hch] at h; exact absurd h (by simp)
          | cons first others =>
            rw [hch] at h
            dsimp only at h
            by_cases hu : first.tag = "ul"
            · rw [if_pos hu] at h
              cases hps : parse_members_list first.children with
              | error e => rw [hps] at h; exact absurd h (by simp)
              | ok ms =>
                rw [hps] at h
                exact ih defval (some ms) res h hne
            · rw [if_neg hu] at h
              exact absurd h (by simp)
        · rw [if_neg hm] at h
          exact ih defval members res h hne

theorem param_sections_go_default_conflict (pname : String)
    (required : Option Bool) (hr : required = some true ∨ required = none)
    (lis : List Element)
    (hdef : ∃ li ∈ lis, ∃ t, li.text = some t ∧ pyStartsWith t ("Default") = true) :
    ∀ defval members, ∃ e,
      param_sections_go pname required lis defval members = .error e := by
  induction lis with
  | nil => exact absurd hdef (by simp)
  | cons li rest ih =>
    intro defval members
    rw [param_sections_go]
    cases ht : li.text with
    | none => exact ⟨.attributeError, rfl⟩
    | some t =>
      dsimp only
      by_cases hd : pyStartsWith t ("Default") = true
      · rw [if_pos hd, if_pos hr]
        exact ⟨_, rfl⟩
      · rw [if_neg hd]
        have hrest : ∃ li ∈ rest, ∃ t, li.text = some t ∧
            pyStartsWith t ("Default") = true := by
          rcases hdef with ⟨li2, hmem, t2, htext, hstart⟩
          rcases List.mem_cons.mp hmem with rfl | hmem2
          · rw [ht] at htext
            cases htext
            exact absurd hstart hd
          · exact ⟨li2, hmem2, t2, htext, hstart⟩
        by_cases hm : pyStartsWith t ("Members") = true
        · rw [if_pos hm]
          cases hch : li.children with
          | nil => exact ⟨_, rfl⟩
          | cons first others =>
            dsimp only
            by_cases hu : first.tag = "ul"
            · rw [if_pos hu]
              cases hps : parse_members_list first.children with
              | error e => exact ⟨e, rfl⟩
              | ok ms => exact ih hrest defval (some ms)
            · rw [if_neg hu]
              exact ⟨_, rfl⟩
        · rw [if_neg hm]
          exact ih hrest defval members

/-- Claim C8: a Default entry in a Parameter member list raises ValueError
unless the parameter was explicitly marked optional, in which case the
stripped text after the colon of the Default line becomes the default value;
consequently every successfully parsed Parameter with a non-null default
value has required false. -/
theorem claim_c8_parameter_default (htmlOf : Element → String) :
    (∀ node param, Parameter.parse_from_etree htmlOf node = .ok param →
        param.default_value ≠ none → param.required = some false)
    ∧ (∀ pname required lis defval members,
        (required = some true ∨ required = none) →
        (∃ li ∈ lis, ∃ t, li.text = some t ∧
          pyStartsWith t ("Default") = true) →
        ∃ e, param_sections_go pname required lis defval members = .error e)
    ∧ (∀ pname required li rest defval members t,
        li.text = some t → pyStartsWith t ("Default") = true →
        (required = some true ∨ required = none) →
        param_sections_go pname required (li :: rest) defval members =
          .error (.valueError
            ("Default value was specified for a non-optional parameter " ++ pname)))
    ∧ (∀ pname li rest defval members t sp,
        li.text = some t → pyStartsWith t ("Default") = true →
        pyFindChar ':' t.toList = some sp →
        param_sections_go pname (some false) (li :: rest) defval members =
          param_sections_go pname (some false) rest
            (some (String.mk (trimChars (t.toList.drop (sp + 1))))) members) := by
  refine ⟨?_, ?_, ?_, ?_⟩
  · intro node param h hdv
    unfold Parameter.parse_from_etree at h
    cases ht : node.text with
    | none => rw [ht] at h; exact absurd h (by simp)
    | some txt =>
      rw [ht] at h
      dsimp only at h
      cases ha : Attribute.parse_from_string txt with
      | error e => rw [ha] at h; exact absurd h (by simp)
      | ok attr =>
        rw [ha] at h
        dsimp only at h
        cases hdrop : node.children.drop
            (parse_description htmlOf node.children 0 [("ul")]).2 with
        | nil =>
          rw [hdrop] at h
          cases h
          exact absurd rfl hdv
        | cons ul others =>
          rw [hdrop] at h
          dsimp only at h
          cases hgo : param_sections_go attr.name attr.required ul.children
              none none with
          | error e => rw [hgo] at h; exact absurd h (by simp)
          | ok dm =>
            rw [hgo] at h
            cases h
            rcases param_sections_go_default_optional attr.name attr.required
                ul.children none none dm hgo hdv with hcon | hreq
            · exact absurd rfl hcon
            · exact hreq
  · intro pname required lis defval members hr hdef
    exact param_sections_go_default_conflict pname required hr lis hdef
      defval members
  · intro pname required li rest defval members t ht hd hr
    rw [param_sections_go, ht]
    dsimp only
    rw [if_pos hd, if_pos hr]
  · intro pname li rest defval members t sp ht hd hsp
    rw [param_sections_go, ht]
    dsimp only
    rw [if_pos hd, if_neg (by simp), hsp]

/-- Claim C8 witness: a parameter marked optional accepts a Default line, and
the parsed default value forces required false via the claim theorem. -/
theorem claim_c8_witness :
    Parameter.parse_from_etree (fun _ => (""))
        ⟨"li", some ("id (number, optional)"),
          [⟨"ul", none, [⟨"li", some ("Default: 42"), []⟩]⟩]⟩ =
      .ok ⟨("id"), ("number"), some false, none, none, some ("42"), []⟩ ∧
    (⟨("id"), ("number"), some false, none, none, some ("42"), []⟩ :
        ParameterS).required = some false := by
  refine ⟨by decide, ?_⟩
  exact (claim_c8_parameter_default (fun _ => (""))).1
    ⟨"li", some ("id (number, optional)"),
      [⟨"ul", none, [⟨"li", some ("Default: 42"), []⟩]⟩]⟩
    ⟨("id"), ("number"), some false, none, none, some ("42"), []⟩
    (by decide) (by decide)

theorem find?_key_map_other {b : Type} (l : List (String × b)) (k k2 : String)
    (v : b) (h : k2 ≠ k) :
    (l.map (fun p => if p.1 = k then (k, v) else p)).find?
        (fun p => p.1 = k2) =
      l.find? (fun p => p.1 = k2) := by
  induction l with
  | nil => rfl
  | cons hd rest ih =>
    by_cases hk : hd.1 = k
    · have hne : ¬ ((k : String) = k2) := fun hc => h hc.symm
      have hne2 : ¬ (hd.1 = k2) := by rw [hk]; exact hne
      rw [List.map_cons, if_pos hk, List.find?_cons, List.find?_cons]
      simp [hne, hne2, ih]
    · rw [List.map_cons, if_neg hk, List.find?_cons, List.find?_cons]
      by_cases hk2 : hd.1 = k2
      · simp [hk2]
      · simp [hk2, ih]

theorem find?_key_map_self {b : Type} (l : List (String × b)) (k : String)
    (v : b) (h : l.any (fun p => p.1 = k) = true) :
    (l.map (fun p => if p.1 = k then (k, v) else p)).find?
        (fun p => p.1 = k) = some (k, v) := by
  induction l with
  | nil => simp at h
  | cons hd rest ih =>
    by_cases hk : hd.1 = k
    · simp [List.find?_cons, hk]
    · simp only [List.any_cons, hk, decide_eq_true_eq, false_or] at h
      simp [List.find?_cons, hk, ih h]

theorem lookupAssoc_dictUpd_self {b : Type} (l : List (String × b)) (k : String)
    (v : b) : lookupAssoc (dictUpd l k v) k = some v := by
  unfold dictUpd lookupAssoc
  by_cases ha : l.any (fun p => p.1 = k)
  · rw [if_pos ha, find?_key_map_self l k v ha]
    rfl
  · rw [if_neg ha, List.find?_append]
    have hnone : l.find? (fun p => p.1 = k) = none := by
      rw [List.find?_eq_none]
      intro p hp
      simp only [decide_eq_true_eq]
      intro hc
      rw [Bool.not_eq_true] at ha
      have := List.any_eq_false.mp ha p hp
      simp [hc] at this
    rw [hnone]
    simp

theorem lookupAssoc_dictUpd_other {b : Type} (l : List (String × b))
    (k k2 : String) (v : b) (h : k2 ≠ k) :
    lookupAssoc (dictUpd l k v) k2 = lookupAssoc l k2 := by
  unfold dictUpd lookupAssoc
  by_cases ha : l.any (fun p => p.1 = k)
  · rw [if_pos ha, find?_key_map_other l k k2 v h]
  · rw [if_neg ha, List.find?_append]
    cases hf : l.find? (fun p => p.1 = k2) with
    | some p => simp
    | none =>
      have hne : ¬ ((k : String) = k2) := fun hc => h hc.symm
      simp [hne]

theorem getLast?_cons_of_ne_nil {a : Type} (c : a) {l : List a} (h : l ≠ []) :
    (c :: l).getLast? = l.getLast? := by
  cases l with
  | nil => exact absurd rfl h
  | cons x xs => exact List.getLast?_cons_cons

theorem lookupAssoc_addParamValues {b : Type} (ps : List (ParamT b)) :
    ∀ (init : List (String × b)) (nm : String),
      lookupAssoc (addParamValues init ps) nm =
        (match paramLast ps nm with
         | some v => some v
         | none => lookupAssoc init nm) := by
  induction ps with
  | nil =>
    intro init nm
    simp [addParamValues, paramLast]
  | cons p rest ih =>
    intro init nm
    have hfold : addParamValues init (p :: rest) =
        addParamValues
          (match p.value with
           | some v =>
             dictUpd
               (match p.default_value with
                | some d => dictUpd init p.name d
                | none => init) p.name v
           | none =>
             match p.default_value with
             | some d => dictUpd init p.name d
             | none => init) rest := rfl
    rw [hfold, ih]
    have hpl : paramLast (p :: rest) nm =
        (match paramContrib p nm with
         | some c =>
           (match paramLast rest nm with
            | some v => some v
            | none => some c)
         | none => paramLast rest nm) := by
      unfold paramLast
      rw [List.filterMap_cons]
      cases hc : paramContrib p nm with
      | none => rfl
      | some c =>
        cases hl : (rest.filterMap (fun q => paramContrib q nm)).getLast? with
        | none =>
          have : rest.filterMap (fun q => paramContrib q nm) = [] := by
            rwa [← List.getLast?_eq_none_iff]
          rw [this]
          rfl
        | some v =>
          have hne : rest.filterMap (fun q => paramContrib q nm) ≠ [] := by
            intro hnil
            rw [hnil] at hl
            exact Option.noConfusion hl
          rw [getLast?_cons_of_ne_nil c hne, hl]
    rw [hpl]
    cases hrest : paramLast rest nm with
    | some v =>
      cases hc : paramContrib p nm <;> rfl
    | none =>
      by_cases hnm : p.name = nm
      · cases hv : p.value with
        | some v =>
          have hc : paramContrib p nm = some v := by
            unfold paramContrib
            rw [if_pos hnm, hv]
          rw [hc]
          dsimp only
          rw [hnm, lookupAssoc_dictUpd_self]
        | none =>
          cases hd : p.default_value with
          | some d =>
            have hc : paramContrib p nm = some d := by
              unfold paramContrib
              rw [if_pos hnm, hv, hd]
            rw [hc]
            dsimp only
            rw [hnm, lookupAssoc_dictUpd_self]
          | none =>
            have hc : paramContrib p nm = none := by
              unfold paramContrib
              rw [if_pos hnm, hv, hd]
            rw [hc]
      · have hc : paramContrib p nm = none := by
          unfold paramContrib
          rw [if_neg hnm]
        rw [hc]
        have hne : nm ≠ p.name := fun hcc => hnm hcc.symm
        cases hv : p.value with
        | some v =>
          cases hd : p.default_value with
          | some d =>
            dsimp only
            rw [lookupAssoc_dictUpd_other _ _ _ _ hne,
              lookupAssoc_dictUpd_other _ _ _ _ hne]
          | none =>
            dsimp only
            rw [lookupAssoc_dictUpd_other _ _ _ _ hne]
        | none =>
          cases hd : p.default_value with
          | some d =>
            dsimp only
            rw [lookupAssoc_dictUpd_other _ _ _ _ hne]
          | none => rfl

theorem mem_trieAdd_self (t : TrieF) (path : String) (m : Option String)
    (idx : Nat) : idx ∈ trieAdd t path m idx path m := by
  unfold trieAdd
  simp

theorem mem_trieAdd_mono {t : TrieF} {p : String} {mm : Option String} {x : Nat}
    (path : String) (m : Option String) (idx : Nat) (h : x ∈ t p mm) :
    x ∈ trieAdd t path m idx p mm := by
  unfold trieAdd
  by_cases hc : p = path ∧ mm = m
  · rw [if_pos hc]
    exact List.mem_append_left _ h
  · rwa [if_neg hc]

theorem trieAddPathsGo_mono (idx : Nat) (m : Option String)
    (subs : List String) :
    ∀ (t : TrieF) (base p : String) (mm : Option String) (x : Nat),
      x ∈ t p mm → x ∈ trieAddPathsGo idx m t base subs p mm := by
  induction subs with
  | nil => intro t base p mm x h; exact h
  | cons s rest ih =>
    intro t base p mm x h
    unfold trieAddPathsGo
    by_cases hs : s ≠ ""
    · rw [if_pos hs]
      exact ih _ _ _ _ _ (mem_trieAdd_mono _ _ _ h)
    · rw [if_neg hs]
      exact ih _ _ _ _ _ h

theorem trieAddPathsGo_mem (idx : Nat) (m : Option String)
    (subs : List String) :
    ∀ (t : TrieF) (base : String), ∀ p ∈ pathPrefixGo base subs,
      idx ∈ trieAddPathsGo idx m t base subs p m := by
  induction subs with
  | nil => intro t base p hp; simp [pathPrefixGo] at hp
  | cons s rest ih =>
    intro t base p hp
    unfold trieAddPathsGo
    by_cases hs : s = ""
    · rw [pathPrefixGo, if_pos hs] at hp
      rw [if_neg (by simpa using hs)]
      exact ih t base p hp
    · rw [pathPrefixGo, if_neg hs] at hp
      rw [if_pos (by simpa using hs)]
      rcases List.mem_cons.mp hp with rfl | hp2
      · exact trieAddPathsGo_mono idx m rest _ _ _ _ _
          (mem_trieAdd_self t _ m idx)
      · exact ih _ _ p hp2

theorem trieAddAction_mem_root (t : TrieF) (idx : Nat) (m : Option String)
    (cu : String) : idx ∈ trieAddAction t idx m cu ("/") m := by
  unfold trieAddAction
  exact trieAddPathsGo_mono idx m _ _ _ _ _ _ (mem_trieAdd_self t _ m idx)

theorem trieAddAction_mem (t : TrieF) (idx : Nat) (m : Option String)
    (cu : String) :
    ∀ p ∈ pathPrefixList cu, idx ∈ trieAddAction t idx m cu p m := by
  intro p hp
  unfold trieAddAction
  exact trieAddPathsGo_mem idx m _ _ _ p hp

theorem trieAddAction_mono {t : TrieF} {p : String} {mm : Option String}
    {x : Nat} (idx : Nat) (m : Option String) (cu : String) (h : x ∈ t p mm) :
    x ∈ trieAddAction t idx m cu p mm := by
  unfold trieAddAction
  exact trieAddPathsGo_mono idx m _ _ _ _ _ _ (mem_trieAdd_mono _ _ _ h)

theorem resetTrieFold_mono {b : Type}
    (expand : String → List (String × b) → String)
    (l : List (Nat × ActionT b)) :
    ∀ (t : TrieF) (p : String) (mm : Option String) (x : Nat),
      x ∈ t p mm → x ∈ l.foldl (resetTrieStep expand) t p mm := by
  induction l with
  | nil => intro t p mm x h; exact h
  | cons pr rest ih =>
    intro t p mm x h
    rw [List.foldl_cons]
    apply ih
    unfold resetTrieStep
    cases Action.uriOf expand pr.2 with
    | none => exact h
    | some cu => exact trieAddAction_mono _ _ _ h

theorem resetTrieFold_mem {b : Type}
    (expand : String → List (String × b) → String)
    (l : List (Nat × ActionT b)) :
    ∀ (t : TrieF), ∀ pr ∈ l, ∀ cu, Action.uriOf expand pr.2 = some cu →
      pr.1 ∈ (l.foldl (resetTrieStep expand) t) ("/") pr.2.request_method ∧
      ∀ p ∈ pathPrefixList cu,
        pr.1 ∈ (l.foldl (resetTrieStep expand) t) p pr.2.request_method := by
  induction l with
  | nil => intro t pr hpr; simp at hpr
  | cons pr0 rest ih =>
    intro t pr hpr cu hcu
    rw [List.foldl_cons]
    rcases List.mem_cons.mp hpr with rfl | hpr2
    · constructor
      · apply resetTrieFold_mono
        unfold resetTrieStep
        rw [hcu]
        exact trieAddAction_mem_root _ _ _ _
      · intro p hp
        apply resetTrieFold_mono
        unfold resetTrieStep
        rw [hcu]
        exact trieAddAction_mem _ _ _ _ p hp
    · exact ih _ pr hpr2 cu hcu

/-- Claim C7: every Action with a defined expanded uri is recorded in the path
trie under its request method at the root key and at every prefix obtained by
progressively appending the slash-separated segments of the uri; the uri is
expanded from the Action template with values in which an Action parameter
contribution overrides the Resource parameter contribution of the same name. -/
theorem claim_c7_path_trie {b : Type}
    (expand : String → List (String × b) → String)
    (actions : List (ActionT b)) (i : Nat) (a : ActionT b)
    (ha : actions[i]? = some a) (cu : String)
    (hcu : Action.uriOf expand a = some cu) :
    (i ∈ reset_trie expand actions ("/") a.request_method)
    ∧ (∀ p ∈ pathPrefixList cu,
        i ∈ reset_trie expand actions p a.request_method)
    ∧ (∀ nm : String,
        lookupAssoc (addParamValues []
            ((a.resourceParams.getD []) ++ (a.parameters.getD []))) nm =
          (match paramLast (a.parameters.getD []) nm with
           | some v => some v
           | none => paramLast (a.resourceParams.getD []) nm)) := by
  have hmem : (i, a) ∈ actions.enum := List.mk_mem_enum_iff_getElem?.mpr ha
  have h := resetTrieFold_mem expand actions.enum (fun _ _ => []) (i, a) hmem
    cu hcu
  refine ⟨h.1, h.2, ?_⟩
  intro nm
  rw [lookupAssoc_addParamValues]
  have hsplit : paramLast ((a.resourceParams.getD []) ++ (a.parameters.getD []))
      nm =
      (match paramLast (a.parameters.getD []) nm with
       | some v => some v
       | none => paramLast (a.resourceParams.getD []) nm) := by
    unfold paramLast
    rw [List.filterMap_append, List.getLast?_append]
    cases ((a.parameters.getD []).filterMap
        (fun p => paramContrib p nm)).getLast? <;> rfl
  rw [hsplit]
  cases hp : paramLast (a.parameters.getD []) nm <;>
    cases hr : paramLast (a.resourceParams.getD []) nm <;>
      simp [lookupAssoc]

/-- Claim C7 witness: a single GET action with uri slash a slash b is indexed
at the root, at slash a and at slash a slash b. -/
theorem claim_c7_witness :
    (0 ∈ reset_trie (fun t _ => t)
        [(⟨some ("GET"), some ("/a/b"), none, none⟩ : ActionT Nat)]
        ("/") (some ("GET")))
    ∧ (0 ∈ reset_trie (fun t _ => t)
        [(⟨some ("GET"), some ("/a/b"), none, none⟩ : ActionT Nat)]
        ("/a") (some ("GET")))
    ∧ (0 ∈ reset_trie (fun t _ => t)
        [(⟨some ("GET"), some ("/a/b"), none, none⟩ : ActionT Nat)]
        ("/a/b") (some ("GET"))) := by
  have h := claim_c7_path_trie (b := Nat) (fun t _ => t)
    [⟨some ("GET"), some ("/a/b"), none, none⟩] 0
    ⟨some ("GET"), some ("/a/b"), none, none⟩ rfl ("/a/b") rfl
  exact ⟨h.1, h.2.1 ("/a") (by decide), h.2.1 ("/a/b") (by decide)⟩

theorem applyDSRefs_no_ref (attrsTable : List (String × AttrsObj))
    (ds : List (String × DSVal))
    (h : ∀ kv ∈ ds, ∃ i v, kv.2 = DSVal.dsNode i none v) :
    applyDSRefs attrsTable ds = .ok (ds, 0) := by
  induction ds with
  | nil => rfl
  | cons kv rest ih =>
    obtain ⟨i, v, hkv⟩ := h kv (by simp)
    have hrest := ih (fun x hx => h x (by simp [hx]))
    obtain ⟨k2, v2⟩ := kv
    simp only at hkv
    subst hkv
    rw [applyDSRefs, hrest]
    rfl

/-- Claim C5 counterexample: an Action whose Attributes reference resolves in
neither table keeps its unresolved reference node and produces no warning,
while the claim demands a warning and a null slot. -/
theorem claim_c5_counterexample :
    apply_attributes_references
        ⟨[], [], [⟨none, [⟨some (.orig 1 (some ("R")))⟩]⟩], 0⟩ =
      .ok ⟨[], [], [⟨none, [⟨some (.orig 1 (some ("R")))⟩]⟩], 0⟩ := by
  rfl

/-- Claim C5 (amended): during resolution, a Resource-level Attributes node
carrying reference REF is replaced by the attributes registered under REF
from a named Resource if present, else resolves through the data structures
slot, and when the name is unknown the slot is left null with a warning; an
Action-level Attributes node carrying REF is replaced by the registered
attributes if present, else by a fresh Attributes node wrapping the children
of the data structure named REF, and when neither exists the action keeps its
unresolved reference node and no warning is emitted. -/
theorem claim_c5_attribute_reference_resolution
    (attrsTable : List (String × AttrsObj)) (ds : List (String × DSVal))
    (hds : ∀ kv ∈ ds, ∃ i v, kv.2 = DSVal.dsNode i none v)
    (aid : Nat) (ref : String) :
    (∀ av, lookupAssoc attrsTable ref = some av →
      apply_attributes_references
          ⟨ds, attrsTable, [⟨none, [⟨some (.orig aid (some ref))⟩]⟩], 0⟩ =
        .ok ⟨ds, attrsTable, [⟨none, [⟨some av⟩]⟩], 0⟩)
    ∧ (∀ i ch, lookupAssoc attrsTable ref = none →
        lookupAssoc ds ref = some (.dsNode i none (.attrsV ch)) →
        apply_attributes_references
            ⟨ds, attrsTable, [⟨none, [⟨some (.orig aid (some ref))⟩]⟩], 0⟩ =
          .ok ⟨ds, attrsTable, [⟨none, [⟨some (.wrapped ch)⟩]⟩], 0⟩)
    ∧ (lookupAssoc attrsTable ref = none → lookupAssoc ds ref = none →
        apply_attributes_references
            ⟨ds, attrsTable, [⟨none, [⟨some (.orig aid (some ref))⟩]⟩], 0⟩ =
          .ok ⟨ds, attrsTable, [⟨none, [⟨some (.orig aid (some ref))⟩]⟩], 0⟩)
    ∧ (∀ av, lookupAssoc attrsTable ref = some av →
        apply_attributes_references
            ⟨ds, attrsTable, [⟨some (.orig aid (some ref)), []⟩], 0⟩ =
          .ok ⟨ds, attrsTable, [⟨some av, []⟩], 0⟩)
    ∧ (lookupAssoc attrsTable ref = none → lookupAssoc ds ref = none →
        apply_attributes_references
            ⟨ds, attrsTable, [⟨some (.orig aid (some ref)), []⟩], 0⟩ =
          .ok ⟨ds, attrsTable, [⟨none, []⟩], 1⟩) := by
  have hid := applyDSRefs_no_ref attrsTable ds hds
  refine ⟨?_, ?_, ?_, ?_, ?_⟩
  · intro av hav
    unfold apply_attributes_references
    rw [hid]
    dsimp only
    rw [resolveResources, resolveResourceAttr]
    dsimp only
    rw [resolveActions, resolveActionAttr]
    simp only [reduceCtorEq, if_false, AttrsObj.referenceOf, hav]
    rfl
  · intro i ch hav hds2
    unfold apply_attributes_references
    rw [hid]
    dsimp only
    rw [resolveResources, resolveResourceAttr]
    dsimp only
    rw [resolveActions, resolveActionAttr]
    simp only [reduceCtorEq, if_false, AttrsObj.referenceOf, hav, hds2]
    rfl
  · intro hav hds2
    unfold apply_attributes_references
    rw [hid]
    dsimp only
    rw [resolveResources, resolveResourceAttr]
    dsimp only
    rw [resolveActions, resolveActionAttr]
    simp only [reduceCtorEq, if_false, AttrsObj.referenceOf, hav, hds2]
    rfl
  · intro av hav
    unfold apply_attributes_references
    rw [hid]
    dsimp only
    rw [resolveResources, resolveResourceAttr]
    simp only [AttrsObj.referenceOf, hav]
    rfl
  · intro hav hds2
    unfold apply_attributes_references
    rw [hid]
    dsimp only
    rw [resolveResources, resolveResourceAttr]
    simp only [AttrsObj.referenceOf, hav, hds2]
    rfl

/-- Claim C5 witness: a resolvable action reference takes the table object,
and an unresolvable resource reference is nulled with one warning. -/
theorem claim_c5_witness :
    apply_attributes_references
        ⟨[], [(("R"), .orig 7 none)],
          [⟨none, [⟨some (.orig 1 (some ("R")))⟩]⟩], 0⟩ =
      .ok ⟨[], [(("R"), .orig 7 none)], [⟨none, [⟨some (.orig 7 none)⟩]⟩], 0⟩ ∧
    apply_attributes_references ⟨[], [], [⟨some (.orig 2 (some ("R"))), []⟩], 0⟩ =
      .ok ⟨[], [], [⟨none, []⟩], 1⟩ := by
  refine ⟨?_, ?_⟩
  · exact (claim_c5_attribute_reference_resolution [(("R"), .orig 7 none)] []
      (by simp) 1 ("R")).1 (.orig 7 none) (by decide)
  · exact (claim_c5_attribute_reference_resolution [] [] (by simp) 2
      ("R")).2.2.2.2 (by decide) (by decide)
